import Mathlib

/-!
# chidley: emission ordering, parameter handling and the main driver

A shallow embedding of `chidley.go`.  Go maps are association lists whose list
order is the iteration order of the `range` statement that walks them (Go leaves
that order unspecified, so every statement below that quantifies over the list
quantifies over every iteration order).  Pointers `*Node` are `Option Node`,
`nil` being `none`.  Go `error` values are strings, the nil error is `none`.
Functions of the repository that live outside `chidley.go` (`print`,
`extractExcludedTags`, `isStringOnlyField`, `nk`, `makeType`, ...) are taken as
parameters.
-/

namespace Chidley

/-- A Go `error` value, identified with its message. -/
abbrev Err := String

/-- A Go map in the iteration order of one `range` walk. -/
abbrev GoMap (κ : Type) (ν : Type) := List (κ × ν)

/-- The fields of `Node` that `chidley.go` reads. -/
inductive Node where
  | mk (name : String) (space : String) (discoveredOrder : Int)
      (children : List (String × Option Node)) : Node

/-- Field `name`. -/
def Node.name : Node → String
  | .mk n _ _ _ => n

/-- Field `space`. -/
def Node.space : Node → String
  | .mk _ s _ _ => s

/-- Field `discoveredOrder`. -/
def Node.discoveredOrder : Node → Int
  | .mk _ _ d _ => d

/-- Field `children`, a `map[string]*Node`. -/
def Node.children : Node → GoMap String (Option Node)
  | .mk _ _ _ c => c

/-- Map read `m[k]` on a map of pointers: `nil` when the key is absent. -/
def mapGet {κ ν : Type} [DecidableEq κ] : GoMap κ (Option ν) → κ → Option ν
  | [], _ => none
  | (k', v) :: rest, k => if k' = k then v else mapGet rest k

/-- Map write `m[k] = v`: replaces the entry of `k`, or adds one. -/
def mapSet {κ ν : Type} [DecidableEq κ] : GoMap κ ν → κ → ν → GoMap κ ν
  | [], k, v => [(k, v)]
  | (k', v') :: rest, k, v =>
    if k' = k then (k, v) :: rest else (k', v') :: mapSet rest k v

/-- Map read `m[k]` on a map of slices: the nil (empty) slice when absent. -/
def sliceGet {κ ν : Type} [DecidableEq κ] : GoMap κ (List ν) → κ → List ν
  | [], _ => []
  | (k', v) :: rest, k => if k' = k then v else sliceGet rest k

/-- How a function stopped: it returned an error value, or it panicked. -/
inductive Exit where
  | returned (err : Option Err)
  | panicked
  deriving DecidableEq

/-- What a struct-printing run did: the state `print` left behind, the calls
made to `print` (argument and returned error, oldest first) and the exit. -/
structure PrintRun (σ : Type) where
  state : σ
  calls : List (Option Node × Option Err)
  exit : Exit

/-- The part of `PrintGoStructVisitor` that the sort functions read.  What
`print` writes (the writer, the buffer behind it) is the separate state `σ`;
`print` is taken not to touch `alreadyVisitedNodes`. -/
structure PrintGoStructVisitor where
  alreadyVisitedNodes : GoMap String (Option Node)

/-- The loop `for ... { err := print(v, get k); if err != nil { return err } }`
followed by `return nil`. -/
def printEach {σ κ : Type} (print : σ → Option Node → σ × Option Err)
    (get : κ → Option Node) : List κ → σ → PrintRun σ
  | [], s => ⟨s, [], .returned none⟩
  | k :: ks, s =>
    match print s (get k) with
    | (s', some e) => ⟨s', [(get k, some e)], .returned (some e)⟩
    | (s', none) =>
      let r := printEach print get ks s'
      ⟨r.state, (get k, none) :: r.calls, r.exit⟩

/-- `sort.Ints`. -/
def sortInts (xs : List Int) : List Int :=
  xs.insertionSort (· ≤ ·)

/-- `sort.Strings`: ascending in the lexicographic order of the strings'
characters (for UTF-8 text, Go's byte order). -/
def sortStrings (xs : List String) : List String :=
  xs.insertionSort (fun a b => a.data ≤ b.data)

/-- The first loop of `printStructsByXml`, over the keys of the visited map:
fills `orderNodes` and `order`.  `none` is the nil dereference of
`v.alreadyVisitedNodes[k].discoveredOrder`. -/
def collectOrder (visited : GoMap String (Option Node)) :
    List String → GoMap Int (Option Node) → List Int →
      Option (GoMap Int (Option Node) × List Int)
  | [], orderNodes, order => some (orderNodes, order)
  | k :: ks, orderNodes, order =>
    match mapGet visited k with
    | none => none
    | some n =>
      collectOrder visited ks (mapSet orderNodes n.discoveredOrder (some n))
        (order ++ [n.discoveredOrder])

/-- `printStructsByXml`: note that `for o := range order` walks the indices
`0 .. len(order)-1` of the sorted slice, and `orderNodes[o]` is read at the
index. -/
def printStructsByXml {σ : Type} (print : σ → Option Node → σ × Option Err)
    (v : PrintGoStructVisitor) (s : σ) : PrintRun σ :=
  match collectOrder v.alreadyVisitedNodes (v.alreadyVisitedNodes.map Prod.fst) [] [] with
  | none => ⟨s, [], .panicked⟩
  | some (orderNodes, order) =>
    let order := sortInts order
    printEach print (fun o : Nat => mapGet orderNodes (o : Int)) (List.range order.length) s

/-- `printStructsAlphabetical`. -/
def printStructsAlphabetical {σ : Type} (print : σ → Option Node → σ × Option Err)
    (v : PrintGoStructVisitor) (s : σ) : PrintRun σ :=
  let keys := sortStrings (v.alreadyVisitedNodes.map Prod.fst)
  printEach print (fun k => mapGet v.alreadyVisitedNodes k) keys s

/-! ## Flags and `handleParameters` -/

/-- The variables of `main` bound to command-line flags, with the values they
hold right after `flag.Parse()`; `args` is `flag.Args()`.  The defaults are the
initial values in `main`. -/
structure Flags where
  codeGenConvert : Bool := false
  structsToStdout : Bool := true
  writeJava : Bool := false
  readFromStandardIn : Bool := false
  sortByXmlOrder : Bool := false
  validateFieldTemplate : Bool := false
  ignoreXmlDecodingErrors : Bool := false
  url : Bool := false
  ignoredXmlTags : String := ""
  lengthTagName : String := ""
  lengthTagAttribute : String := ""
  args : List String := []

/-- The value of the global `structSort`. -/
inductive StructSort where
  | alphabetical
  | byXml
  deriving DecidableEq

/-- `countNumberOfBoolsSet`, on the values the pointers refer to. -/
def countNumberOfBoolsSet (a : List Bool) : Nat :=
  a.foldl (fun counter b => if b then counter + 1 else counter) 0

/-- What `handleParameters` leaves behind: the flag variables (with
`structsToStdout` possibly cleared), the global `structSort`,
`ignoredXmlTagsMap`, the lines it logged and the error it returns. -/
structure ParamRun (τ : Type) where
  flags : Flags
  structSort : StructSort
  ignoredXmlTagsMap : Option τ
  logged : List String
  err : Option Err

/-- The closure `handleParameters` of `main`, after `flag.Parse()`.
`extractExcludedTags` is defined outside `chidley.go`. -/
def handleParameters {τ : Type} (extractExcludedTags : String → Option τ × Option Err)
    (structSort : StructSort) (f : Flags) : ParamRun τ :=
  let structsToStdout := if f.codeGenConvert || f.writeJava then false else f.structsToStdout
  let f1 : Flags := { f with structsToStdout := structsToStdout }
  let numBoolsSet := countNumberOfBoolsSet [f1.codeGenConvert, f1.structsToStdout, f1.writeJava]
  let logged : List String :=
    if numBoolsSet > 1 then ["  ERROR: Only one of -W -J -X -V -c can be set"]
    else if numBoolsSet = 0 then ["  ERROR: At least one of -W -J -X -V -c must be set"]
    else []
  let structSort1 := if f.sortByXmlOrder then StructSort.byXml else structSort
  match extractExcludedTags f.ignoredXmlTags with
  | (tags, some err) => ⟨f1, structSort1, tags, logged, some err⟩
  | (tags, none) =>
    if (f.lengthTagName = "" ∧ f.lengthTagAttribute = "") ∨
        (f.lengthTagName ≠ "" ∧ f.lengthTagAttribute ≠ "") then
      ⟨f1, structSort1, tags, logged, none⟩
    else
      ⟨f1, structSort1, tags, logged,
        some "Both lengthTagName and lengthTagAttribute must be set"⟩

/-! ## Sources -/

/-- Which implementation of `Source` was allocated. -/
inductive SourceKind where
  | UrlSource
  | StdinSource
  | FileSource
  deriving DecidableEq

/-- A source made by `makeSourceReaders`: its kind and the name given to
`newSource`. -/
structure Source where
  kind : SourceKind
  name : String
  deriving DecidableEq

/-- What the goroutine of `makeSourceReaders` did: the sources it sent on the
channel, in order, and the error of the `log.Fatal` that ended it, if any. -/
structure Delivery where
  sent : List Source
  fatal : Option Err
  deriving DecidableEq

/-- The body of the goroutine in `makeSourceReaders`: one pass over
`sourceNames`.  `newSource` stands for the method `newSource` of the allocated
source (defined outside `chidley.go`); its error is fatal. -/
def makeSourceReaders (newSource : Source → Option Err) :
    List String → Bool → Bool → Delivery
  | [], _, _ => ⟨[], none⟩
  | name :: rest, url, standardIn =>
    let kind :=
      if url then SourceKind.UrlSource
      else if standardIn then SourceKind.StdinSource
      else SourceKind.FileSource
    match newSource ⟨kind, name⟩ with
    | some err => ⟨[], some err⟩
    | none =>
      let d := makeSourceReaders newSource rest url standardIn
      ⟨⟨kind, name⟩ :: d.sent, d.fatal⟩

/-! ## The extractor and the source loop of `main` -/

/-- An attribute descriptor; `chidley.go` only takes the length of `[]*FQN`. -/
structure FQN where
  name : String
  deriving DecidableEq

/-- The fields of `Extractor` that `chidley.go` reads after extraction. -/
structure Extractor where
  root : Option Node
  firstNode : Option Node
  globalTagAttributes : GoMap String (List FQN)

/-! ## Emission: `makeOneLevelDown` and `generateGoCode` -/

/-- The struct `XMLType`. -/
structure XMLType where
  NameType : String
  XMLName : String
  XMLNameUpper : String
  XMLSpace : String
  deriving DecidableEq

/-- The struct `XmlInfo` handed to the code template. -/
structure XmlInfo where
  BaseXML : XMLType
  OneLevelDownXML : List XMLType
  Filenames : List String
  Filename : String
  Structs : String
  deriving DecidableEq

/-- Functions on nodes and names that `chidley.go` calls and other files of
the repository define. -/
structure Helpers where
  nk : Node → String
  isStringOnlyField : Node → Nat → Bool
  makeType : Node → String → String → Bool → String
  capitalizeFirstLetter : String → String

/-- The `XMLType` literal built from a node `n`, as written in
`makeOneLevelDown` and in `generateGoCode`. -/
def xmlTypeOf (h : Helpers) (keepXmlFirstLetterCase : Bool) (namePrefix nameSuffix : String)
    (n : Node) : XMLType :=
  { NameType := h.makeType n namePrefix nameSuffix keepXmlFirstLetterCase
    XMLName := n.name
    XMLNameUpper := h.capitalizeFirstLetter n.name
    XMLSpace := n.space }

/-- The inner loop of `makeOneLevelDown`, `for _, n := range np.children`,
appending to `children`. -/
def oneLevelDownInner (h : Helpers) (globalTagAttributes : GoMap String (List FQN))
    (flattenStrings keepXmlFirstLetterCase : Bool) (namePrefix nameSuffix : String) :
    GoMap String (Option Node) → List XMLType → List XMLType
  | [], children => children
  | (_, none) :: rest, children =>
    oneLevelDownInner h globalTagAttributes flattenStrings keepXmlFirstLetterCase
      namePrefix nameSuffix rest children
  | (_, some n) :: rest, children =>
    if flattenStrings &&
        h.isStringOnlyField n (sliceGet globalTagAttributes (h.nk n)).length then
      oneLevelDownInner h globalTagAttributes flattenStrings keepXmlFirstLetterCase
        namePrefix nameSuffix rest children
    else
      oneLevelDownInner h globalTagAttributes flattenStrings keepXmlFirstLetterCase
        namePrefix nameSuffix rest
        (children ++ [xmlTypeOf h keepXmlFirstLetterCase namePrefix nameSuffix n])

/-- The outer loop of `makeOneLevelDown`, `for _, np := range node.children`. -/
def oneLevelDownOuter (h : Helpers) (globalTagAttributes : GoMap String (List FQN))
    (flattenStrings keepXmlFirstLetterCase : Bool) (namePrefix nameSuffix : String) :
    GoMap String (Option Node) → List XMLType → List XMLType
  | [], children => children
  | (_, none) :: rest, children =>
    oneLevelDownOuter h globalTagAttributes flattenStrings keepXmlFirstLetterCase
      namePrefix nameSuffix rest children
  | (_, some np) :: rest, children =>
    oneLevelDownOuter h globalTagAttributes flattenStrings keepXmlFirstLetterCase
      namePrefix nameSuffix rest
      (oneLevelDownInner h globalTagAttributes flattenStrings keepXmlFirstLetterCase
        namePrefix nameSuffix np.children children)

/-- `makeOneLevelDown`, for a non-nil `node`. -/
def makeOneLevelDown (h : Helpers) (node : Node)
    (globalTagAttributes : GoMap String (List FQN))
    (flattenStrings keepXmlFirstLetterCase : Bool) (namePrefix nameSuffix : String) :
    List XMLType :=
  oneLevelDownOuter h globalTagAttributes flattenStrings keepXmlFirstLetterCase
    namePrefix nameSuffix node.children []

/-- The non-nil grandchildren of a node, in the order the two nested `range`
loops reach them. -/
def grandchildren (node : Node) : List Node :=
  (node.children.filterMap Prod.snd).flatMap (fun np => np.children.filterMap Prod.snd)

/-- The function `structSort` points to. -/
def StructSort.run {σ : Type} (srt : StructSort) (print : σ → Option Node → σ × Option Err)
    (v : PrintGoStructVisitor) (s : σ) : PrintRun σ :=
  match srt with
  | .alphabetical => printStructsAlphabetical print v s
  | .byXml => printStructsByXml print v s

/-- What `generateGoCode` needs from outside `chidley.go`, for a buffer state
`σ`: the visitor after `init` and `Visit(ex.root)`, the empty buffer, `print`
writing to it, `buf.String()`, `getFullPath`, `getFullPaths`, and in `execute`
the call `x.init()` followed by `t.Execute(out, x)`. -/
structure Emitter (σ : Type) where
  helpers : Helpers
  visit : Extractor → PrintGoStructVisitor
  newBuffer : σ
  print : σ → Option Node → σ × Option Err
  bufString : σ → String
  getFullPath : String → String × Option Err
  getFullPaths : List String → List String × Option Err
  execute : XmlInfo → Option Err

/-- What `generateGoCode` did: the struct-printing run, the value the code
template was executed on (`none` when `t.Execute` was not reached) and the
exit. -/
structure GenRun (σ : Type) where
  structs : PrintRun σ
  executed : Option XmlInfo
  exit : Exit

/-- `generateGoCode`. -/
def generateGoCode {σ : Type} (em : Emitter σ) (structSort : StructSort)
    (sourceNames : List String) (ex : Extractor)
    (flattenStrings keepXmlFirstLetterCase : Bool) (namePrefix nameSuffix : String) :
    GenRun σ :=
  let r := structSort.run em.print (em.visit ex) em.newBuffer
  match r.exit with
  | .panicked => ⟨r, none, .panicked⟩
  | .returned _ =>
    match ex.firstNode with
    | none => ⟨r, none, .panicked⟩
    | some firstNode =>
      let xt := xmlTypeOf em.helpers keepXmlFirstLetterCase namePrefix nameSuffix firstNode
      match sourceNames with
      | [] => ⟨r, none, .panicked⟩
      | sourceName :: _ =>
        match em.getFullPath sourceName with
        | (_, some err) => ⟨r, none, .returned (some err)⟩
        | (fullPath, none) =>
          match em.getFullPaths sourceNames with
          | (_, some err) => ⟨r, none, .returned (some err)⟩
          | (fullPaths, none) =>
            match ex.root with
            | none => ⟨r, none, .panicked⟩
            | some root =>
              let x : XmlInfo :=
                { BaseXML := xt
                  OneLevelDownXML :=
                    makeOneLevelDown em.helpers root ex.globalTagAttributes flattenStrings
                      keepXmlFirstLetterCase namePrefix nameSuffix
                  Filenames := fullPaths
                  Filename := fullPath
                  Structs := em.bufString r.state }
              ⟨r, some x, .returned (em.execute x)⟩

/-! ## The Java branch and `main` -/

/-- The loop `for _, child := range ex.root.children { ...; onlyChild = child }`
of the Java branch: the value `onlyChild` holds after it. -/
def javaOnlyChild : GoMap String (Option Node) → Option Node → Option Node
  | [], onlyChild => onlyChild
  | (_, child) :: rest, _ => javaOnlyChild rest child

/-- What `main` does, as seen from outside. -/
inductive Event where
  | log (msg : String)
  | usage
  | fatal (msg : String)
  | extract (source : Source)
  | done
  | generateGoCode (sourceNames : List String) (ex : Extractor)
  | generateGoStructs (sourceName : String) (ex : Extractor)
  | javaVisit (child : Option Node)
  | printJavaJaxbMain (onlyChild : Option Node)
  | printPackageInfo (onlyChild : Option Node)
  | printMavenPom
  | panic

/-- The source an `extract` event is about. -/
def Event.source? : Event → Option Source
  | .extract source => some source
  | _ => none

/-- What the source loop of `main` did: the extractor it left, the events in
order, and whether `log.Fatal` ended the process. -/
structure LoopRun where
  ex : Extractor
  trace : List Event
  fatal : Bool

/-- The loop `for source := range sources` of `main`.  `extract` stands for
`m.extract(source.getReader())`. -/
def extractSources (extract : Extractor → Source → Extractor × Option Err)
    (ignoreXmlDecodingErrors : Bool) : List Source → Extractor → LoopRun
  | [], ex => ⟨ex, [], false⟩
  | source :: rest, ex =>
    match extract ex source with
    | (ex1, some err) =>
      if !ignoreXmlDecodingErrors then
        ⟨ex1, [.extract source, .log ("ERROR: " ++ err), .fatal ("FATAL ERROR: " ++ err)], true⟩
      else
        let r := extractSources extract ignoreXmlDecodingErrors rest ex1
        ⟨r.ex, .extract source :: .log ("ERROR: " ++ err) :: r.trace, r.fatal⟩
    | (ex1, none) =>
      let r := extractSources extract ignoreXmlDecodingErrors rest ex1
      ⟨r.ex, .extract source :: r.trace, r.fatal⟩

/-- The extractor after `extract` ran on every source of the list in turn,
each call starting from the state the previous one left. -/
def extractAll (extract : Extractor → Source → Extractor × Option Err) :
    List Source → Extractor → Extractor
  | [], ex => ex
  | source :: rest, ex => extractAll extract rest (extract ex source).1

/-- What `main` needs from outside `chidley.go`: `extractExcludedTags`,
`runValidateFieldTemplate`, `filepath.Abs`, the `newSource` method, the
extractor after the struct literal and `init()`, `extract` on the reader of a
source, `done()`, and `getFullPath`; and the scheduling of the goroutine of
`makeSourceReaders` against `main`, which matters when the goroutine ends the
process with `log.Fatal`: `finishedAtFatal` bounds the number of loop
iterations `main` has completed at that moment, and `extractingAtFatal` says
whether `main` has by then called `extract` on the next source. -/
structure World (τ : Type) where
  extractExcludedTags : String → Option τ × Option Err
  structSort : StructSort
  runValidateFieldTemplate : Bool → Option Err
  abs : String → String × Option Err
  newSource : Source → Option Err
  init : Flags → Option τ → Extractor
  extract : Extractor → Source → Extractor × Option Err
  done : Extractor → Extractor
  getFullPath : String → String × Option Err
  finishedAtFatal : Nat
  extractingAtFatal : Bool

/-- The loop `for i, _ := range sourceNames { sourceNames[i], err = filepath.Abs(...) }`
of `main`; the error is fatal. -/
def absAll (abs : String → String × Option Err) : List String → List String × Option Err
  | [] => ([], none)
  | name :: rest =>
    match abs name with
    | (_, some err) => ([], some err)
    | (a, none) =>
      match absAll abs rest with
      | (as, e) => (a :: as, e)

/-- The `switch` at the end of `main`.  The calls that only touch the file
system (`os.RemoveAll`, `os.MkdirAll`) are left out; the bodies of
`generateGoCode` and `generateGoStructs` are events here.  In the Java branch
`printJavaJaxbMain onlyChild` is the call
`printJavaJaxbMain(onlyChild.makeJavaType(...), ...)`, and `printPackageInfo`
reads `node.space` first, which panics on a nil `onlyChild`, before
`printMavenPom` is reached. -/
def emission (getFullPath : String → String × Option Err) (f : Flags)
    (sourceNames : List String) (ex : Extractor) : List Event :=
  if f.codeGenConvert then [.generateGoCode sourceNames ex]
  else if f.structsToStdout then
    match sourceNames with
    | [] => [.panic]
    | sourceName :: _ => [.generateGoStructs sourceName ex]
  else if f.writeJava then
    match ex.root with
    | none => [.panic]
    | some root =>
      root.children.map (fun c => Event.javaVisit c.2) ++
        (match sourceNames with
        | [] => [.panic]
        | sourceName :: _ =>
          match getFullPath sourceName with
          | (_, some err) => [.fatal err]
          | (_, none) =>
            match javaOnlyChild root.children none with
            | none => [.printJavaJaxbMain none, .panic]
            | some onlyChild =>
              [.printJavaJaxbMain (some onlyChild), .printPackageInfo (some onlyChild),
                .printMavenPom])
  else []

/-- The part of `main` from the loop `for source := range sources` to its
end, for a channel that delivers `sources` and is then closed: the extractor
is made, the sources are extracted, and unless `log.Fatal` ended the process,
`ex.done()` and the `switch` follow. -/
def consumeSources {τ : Type} (w : World τ) (f : Flags) (tags : Option τ)
    (sourceNames : List String) (sources : List Source) : List Event :=
  let r := extractSources w.extract f.ignoreXmlDecodingErrors sources (w.init f tags)
  if r.fatal then r.trace
  else r.trace ++ .done :: emission w.getFullPath f sourceNames (w.done r.ex)

/-- The part of `main` from `makeSourceReaders` on (the error value
`makeSourceReaders` returns is read before the goroutine assigns it and is
nil).  When the goroutine makes every source, it closes the channel and `main`
consumes what was sent.  When `newSource` fails after `k` sources were sent,
the goroutine's `log.Fatal` ends the process while `main` is still in its loop:
the channel holds one source, so `main` has by then completed at least `k-2`
and at most `k` iterations, the number being fixed by the scheduling
(`finishedAtFatal`, clamped to that range), and it may have called `extract`
on the next source (`extractingAtFatal`); a `log.Fatal` of `main` itself within
those iterations comes first. -/
def runSources {τ : Type} (w : World τ) (f : Flags) (tags : Option τ)
    (sourceNames : List String) : List Event :=
  let d := makeSourceReaders w.newSource sourceNames f.url f.readFromStandardIn
  match d.fatal with
  | none => consumeSources w f tags sourceNames d.sent
  | some err =>
    let finished := max (d.sent.length - 2) (min d.sent.length w.finishedAtFatal)
    let r := extractSources w.extract f.ignoreXmlDecodingErrors (d.sent.take finished)
      (w.init f tags)
    if r.fatal then r.trace
    else
      match d.sent.drop finished, w.extractingAtFatal with
      | source :: _, true => r.trace ++ [.extract source, .fatal err]
      | _, _ => r.trace ++ [.fatal err]

/-- `main`, after `flag.Parse()`. -/
def main {τ : Type} (w : World τ) (f : Flags) : List Event :=
  let p := handleParameters w.extractExcludedTags w.structSort f
  match p.err with
  | some err => p.logged.map Event.log ++ [.log err, .usage]
  | none =>
    p.logged.map Event.log ++
      (match w.runValidateFieldTemplate p.flags.validateFieldTemplate with
      | some _ => []
      | none =>
        if p.flags.validateFieldTemplate then []
        else if p.flags.args.length = 0 ∧ p.flags.readFromStandardIn = false then [.usage]
        else
          let sourceNames := if !p.flags.readFromStandardIn then p.flags.args else []
          if !p.flags.url && !p.flags.readFromStandardIn then
            match absAll w.abs sourceNames with
            | (_, some err) => [.fatal ("FATAL ERROR: " ++ err)]
            | (names, none) => runSources w p.flags p.ignoredXmlTagsMap names
          else runSources w p.flags p.ignoredXmlTagsMap sourceNames)

/-- The kind of source `makeSourceReaders` allocates for the given switches. -/
def sourceKind (url standardIn : Bool) : SourceKind :=
  if url then .UrlSource else if standardIn then .StdinSource else .FileSource

/-- Every call of `extract` succeeds when the sources of the list are
extracted in turn from the state `ex`. -/
def succeedsOn (extract : Extractor → Source → Extractor × Option Err) :
    List Source → Extractor → Prop
  | [], _ => True
  | source :: rest, ex =>
    (extract ex source).2 = none ∧ succeedsOn extract rest (extract ex source).1

/-- The sources `makeSourceReaders` makes for `sourceNames` under the flags
`f`: one per name, in order, of the kind the switches select. -/
def sourcesOf (f : Flags) (sourceNames : List String) : List Source :=
  sourceNames.map (fun name => ⟨sourceKind f.url f.readFromStandardIn, name⟩)

/-! ## Concrete inputs -/

/-- A childless node with the given name and discovery index. -/
def leaf (name : String) (order : Int) : Node :=
  .mk name "" order []

/-- A `print` on a string buffer: it appends the node name, and fails, after a
partial write, on the node named `bad`. -/
def samplePrint : String → Option Node → String × Option Err
  | buf, none => (buf, none)
  | buf, some n =>
    if n.name = "bad" then (buf ++ "type ", some "template: bad")
    else (buf ++ n.name ++ ";", none)

/-- An `extract` that registers one root element named after the source, and
reports a decoding error, after registering it, on the source `bad.xml`. -/
def sampleExtract (ex : Extractor) (source : Source) : Extractor × Option Err :=
  let children : GoMap String (Option Node) :=
    match ex.root with
    | some r => r.children
    | none => []
  let n := leaf source.name children.length
  let ex1 : Extractor :=
    { root := some (.mk "" "" 0 (children ++ [(source.name, some n)]))
      firstNode :=
        match ex.firstNode with
        | some x => some x
        | none => some n
      globalTagAttributes := ex.globalTagAttributes }
  (ex1, if source.name = "bad.xml" then some "XML syntax error" else none)

/-- A world in which every call outside `chidley.go` succeeds, except
`sampleExtract` on `bad.xml`. -/
def sampleWorld : World Unit :=
  { extractExcludedTags := fun _ => (some (), none)
    structSort := .alphabetical
    runValidateFieldTemplate := fun _ => none
    abs := fun name => (name, none)
    newSource := fun _ => none
    init := fun _ _ => ⟨some (.mk "" "" 0 []), none, []⟩
    extract := sampleExtract
    done := fun ex => ex
    getFullPath := fun name => (name, none)
    finishedAtFatal := 0
    extractingAtFatal := false }

/-- Helpers that name a type after its node, prefix and suffix, and treat
exactly the attribute-free nodes named `s` as string-only. -/
def sampleHelpers : Helpers :=
  { nk := fun n => n.name
    isStringOnlyField := fun n attrs => n.name = "s" && attrs = 0
    makeType := fun n pre suf _ => pre ++ n.name ++ suf
    capitalizeFirstLetter := fun name => name }

/-- A visitor that has seen the nodes `good` and `bad`. -/
def sampleVisitor : PrintGoStructVisitor :=
  ⟨[("good", some (leaf "good" 0)), ("bad", some (leaf "bad" 1))]⟩

/-- An emitter over a string buffer whose visitor is `sampleVisitor`, and
whose template execution succeeds. -/
def sampleEmitter : Emitter String :=
  { helpers := sampleHelpers
    visit := fun _ => sampleVisitor
    newBuffer := ""
    print := samplePrint
    bufString := fun buf => buf
    getFullPath := fun name => (name, none)
    getFullPaths := fun names => (names, none)
    execute := fun _ => none }

/-- An extractor whose root has the single child `doc`. -/
def sampleExtractor : Extractor :=
  { root := some (.mk "" "" 0 [("doc", some (leaf "doc" 0))])
    firstNode := some (leaf "doc" 0)
    globalTagAttributes := [] }

/-- An extractor that saw the root `a` first and the root `b` second, with
`ex.root.children` walked in the order `a`, `b`. -/
def twoRoots : Extractor :=
  { root := some (.mk "" "" 0 [("a", some (leaf "a" 0)), ("b", some (leaf "b" 1))])
    firstNode := some (leaf "a" 0)
    globalTagAttributes := [] }

/-- The extractor `twoRoots`, with `ex.root.children` walked in the order
`b`, `a`. -/
def twoRootsSwapped : Extractor :=
  { root := some (.mk "" "" 0 [("b", some (leaf "b" 1)), ("a", some (leaf "a" 0))])
    firstNode := some (leaf "a" 0)
    globalTagAttributes := [] }

/-- The flags of `chidley -W -J a.xml`. -/
def flagsWJ : Flags :=
  { codeGenConvert := true, writeJava := true, args := ["a.xml"] }

/-- The flags of `chidley -G=false a.xml`. -/
def flagsNoMode : Flags :=
  { structsToStdout := false, args := ["a.xml"] }

/-- The flags of `chidley -c`. -/
def flagsStdin : Flags :=
  { readFromStandardIn := true }

/-- The flags of `chidley -J a.xml`. -/
def flagsJava : Flags :=
  { writeJava := true, structsToStdout := false, args := ["a.xml"] }

/-- The flags of `chidley -N len a.xml`. -/
def flagsLengthName : Flags :=
  { lengthTagName := "len", args := ["a.xml"] }

/-- The flags of `chidley -W ok.xml bad.xml late.xml`. -/
def flagsStrict : Flags :=
  { codeGenConvert := true, args := ["ok.xml", "bad.xml", "late.xml"] }

/-- The flags of `chidley -I ok.xml bad.xml late.xml`. -/
def flagsPermissive : Flags :=
  { ignoreXmlDecodingErrors := true, args := ["ok.xml", "bad.xml", "late.xml"] }

/-- The flags of `chidley -J -I ok.xml bad.xml late.xml`, as `handleParameters`
leaves them. -/
def flagsPermissiveJava : Flags :=
  { writeJava := true, structsToStdout := false, ignoreXmlDecodingErrors := true,
    args := ["ok.xml", "bad.xml", "late.xml"] }

/-- The flags of `chidley -I bad.xml ok.xml late.xml`. -/
def flagsBadFirst : Flags :=
  { ignoreXmlDecodingErrors := true, args := ["bad.xml", "ok.xml", "late.xml"] }

/-- A world like `sampleWorld` in which `late.xml` cannot be opened, and in
which `main` has completed `finished` iterations of its loop (as far as the
channel allows) when the goroutine reports it. -/
def unopenableWorld (finished : Nat) : World Unit :=
  { sampleWorld with
    newSource := fun src => if src.name = "late.xml" then some "open late.xml" else none
    finishedAtFatal := finished }

/-! ## Lemmas on maps and on the print loop -/

theorem mapGet_mapSet {κ ν : Type} [DecidableEq κ] (m : GoMap κ (Option ν)) (k k' : κ)
    (v : Option ν) : mapGet (mapSet m k v) k' = if k = k' then v else mapGet m k' := by
  induction m with
  | nil => simp [mapSet, mapGet]
  | cons hd tl ih =>
    obtain ⟨a, b⟩ := hd
    by_cases h : a = k
    · subst h
      by_cases h' : a = k' <;> simp [mapSet, mapGet, h']
    · by_cases h' : a = k'
      · subst h'
        simp [mapSet, mapGet, h, Ne.symm h]
      · simp [mapSet, mapGet, h, h', ih]

theorem printEach_cases {σ κ : Type} (print : σ → Option Node → σ × Option Err)
    (get : κ → Option Node) (ks : List κ) (s : σ) :
    ((printEach print get ks s).exit = .returned none ∧
      (printEach print get ks s).calls = ks.map (fun k => (get k, none))) ∨
    (∃ pre k post e, ks = pre ++ k :: post ∧
      (printEach print get ks s).exit = .returned (some e) ∧
      (printEach print get ks s).calls = pre.map (fun k => (get k, none)) ++ [(get k, some e)]) := by
  induction ks generalizing s with
  | nil => left; simp [printEach]
  | cons k ks ih =>
    rcases hp : print s (get k) with ⟨s', _ | e⟩
    · rcases ih s' with ⟨h1, h2⟩ | ⟨pre, k', post, e, h1, h2, h3⟩
      · left
        simp [printEach, hp, h1, h2]
      · right
        exact ⟨k :: pre, k', post, e, by simp [h1], by simp [printEach, hp, h2],
          by simp [printEach, hp, h3]⟩
    · right
      exact ⟨[], k, ks, e, by simp, by simp [printEach, hp], by simp [printEach, hp]⟩

theorem collectOrder_keyed (visited : GoMap String (Option Node)) (ks : List String)
    (orderNodes : GoMap Int (Option Node)) (order : List Int)
    (res : GoMap Int (Option Node) × List Int)
    (hinv : ∀ i X, mapGet orderNodes i = some X → X.discoveredOrder = i)
    (hres : collectOrder visited ks orderNodes order = some res) :
    ∀ i X, mapGet res.1 i = some X → X.discoveredOrder = i := by
  induction ks generalizing orderNodes order with
  | nil =>
    simp only [collectOrder, Option.some.injEq] at hres
    subst hres
    exact hinv
  | cons k ks ih =>
    cases hk : mapGet visited k with
    | none => simp [collectOrder, hk] at hres
    | some n =>
      simp only [collectOrder, hk] at hres
      refine ih _ _ ?_ hres
      intro i X hX
      rw [mapGet_mapSet] at hX
      split at hX
      · rename_i heq
        simp only [Option.some.injEq] at hX
        subst hX
        exact heq
      · exact hinv i X hX

theorem range_get_pairwise (orderNodes : GoMap Int (Option Node))
    (hinv : ∀ i X, mapGet orderNodes i = some X → X.discoveredOrder = i) (n : Nat) :
    ((List.range n).map (fun o : Nat => mapGet orderNodes (o : Int))).Pairwise
      (fun x y => ∀ X Y, x = some X → y = some Y → X.discoveredOrder < Y.discoveredOrder) := by
  rw [List.pairwise_map]
  refine List.Pairwise.imp ?_ (List.pairwise_lt_range n)
  intro a b hab X Y hX hY
  rw [hinv _ _ hX, hinv _ _ hY]
  exact_mod_cast hab

theorem printEach_calls_sublist {σ κ : Type} (print : σ → Option Node → σ × Option Err)
    (get : κ → Option Node) (ks : List κ) (s : σ) :
    ((printEach print get ks s).calls.map Prod.fst).Sublist (ks.map get) := by
  rcases printEach_cases print get ks s with ⟨_, h2⟩ | ⟨pre, k, post, e, h1, _, h3⟩
  · rw [h2, List.map_map]
    exact List.Sublist.refl _
  · rw [h3, h1]
    simp only [List.map_append, List.map_map, List.map_cons, List.map_nil]
    exact List.Sublist.append (List.Sublist.refl _)
      (List.Sublist.cons₂ _ (List.nil_sublist _))

/-! ## Ordering of the emitted declarations -/

/-- C2: among the nodes `printStructsByXml` hands to `print`, a node handed
over earlier never has a larger discovery index than one handed over later,
whatever `alreadyVisitedNodes` holds and whatever `print` does. -/
theorem printStructsByXml_discovery_monotone {σ : Type}
    (print : σ → Option Node → σ × Option Err) (v : PrintGoStructVisitor) (s : σ) :
    ((printStructsByXml print v s).calls.map Prod.fst).Pairwise
      (fun x y => ∀ X Y, x = some X → y = some Y → X.discoveredOrder ≤ Y.discoveredOrder) := by
  unfold printStructsByXml
  cases hc : collectOrder v.alreadyVisitedNodes (v.alreadyVisitedNodes.map Prod.fst) [] [] with
  | none => simp
  | some res =>
    obtain ⟨orderNodes, order⟩ := res
    have hinv := collectOrder_keyed _ _ [] [] _ (by intro i X h; simp [mapGet] at h) hc
    have hpw := range_get_pairwise orderNodes hinv (sortInts order).length
    have hsub := printEach_calls_sublist print (fun o : Nat => mapGet orderNodes (o : Int))
      (List.range (sortInts order).length) s
    exact (hpw.sublist hsub).imp (fun h X Y hX hY => le_of_lt (h X Y hX hY))

/-- C1: a visitor holding two nodes with discovery indices 0 and 2, and a
`print` that never fails: `printStructsByXml` prints the first node, then calls
`print` on nil, and never prints the second node. -/
theorem printStructsByXml_gap_prints_nil :
    (printStructsByXml (fun (s : Unit) (_ : Option Node) => (s, (none : Option Err)))
      ⟨[("a", some (leaf "a" 0)), ("b", some (leaf "b" 2))]⟩ ()).calls =
      [(some (leaf "a" 0), none), (none, none)] ∧
    (printStructsByXml (fun (s : Unit) (_ : Option Node) => (s, (none : Option Err)))
      ⟨[("a", some (leaf "a" 0)), ("b", some (leaf "b" 2))]⟩ ()).exit = .returned none := by
  constructor <;> rfl

/-! ## Configuration and the driver -/

/-- C4: with both `-W` and `-J` set (two output modes), and with `-G=false`
alone (no output mode), `handleParameters` logs its ERROR line and returns nil,
and `main` goes on to extract the source; with two modes it also emits. -/
theorem main_mode_count_not_enforced :
    (handleParameters sampleWorld.extractExcludedTags sampleWorld.structSort flagsWJ).err = none ∧
    main sampleWorld flagsWJ =
      [.log "  ERROR: Only one of -W -J -X -V -c can be set",
        .extract ⟨.FileSource, "a.xml"⟩, .done,
        .generateGoCode ["a.xml"]
          (sampleExtract ⟨some (.mk "" "" 0 []), none, []⟩ ⟨.FileSource, "a.xml"⟩).1] ∧
    (handleParameters sampleWorld.extractExcludedTags sampleWorld.structSort
      flagsNoMode).err = none ∧
    main sampleWorld flagsNoMode =
      [.log "  ERROR: At least one of -W -J -X -V -c must be set",
        .extract ⟨.FileSource, "a.xml"⟩, .done] := by
  refine ⟨rfl, rfl, rfl, rfl⟩

/-- C9: with `-c` and no file argument, `main` passes the usage check, but
`sourceNames` is empty: `makeSourceReaders` sends no source, nothing is
extracted, and the default emission branch panics on `sourceNames[0]`. -/
theorem main_stdin_delivers_no_source :
    makeSourceReaders sampleWorld.newSource [] flagsStdin.url flagsStdin.readFromStandardIn =
      ⟨[], none⟩ ∧
    main sampleWorld flagsStdin = [.done, .panic] := by
  refine ⟨rfl, rfl⟩

/-- C8: with two roots `a` (seen first, `ex.firstNode`) and `b`, the Java
branch uses `b` as `onlyChild` when `ex.root.children` is walked `a`, `b`, and
`a` when the same map is walked `b`, `a`. -/
theorem java_onlyChild_is_last_walked :
    twoRoots.firstNode = some (leaf "a" 0) ∧
    emission sampleWorld.getFullPath flagsJava ["a.xml"] twoRoots =
      [.javaVisit (some (leaf "a" 0)), .javaVisit (some (leaf "b" 1)),
        .printJavaJaxbMain (some (leaf "b" 1)), .printPackageInfo (some (leaf "b" 1)),
        .printMavenPom] ∧
    twoRootsSwapped.firstNode = some (leaf "a" 0) ∧
    emission sampleWorld.getFullPath flagsJava ["a.xml"] twoRootsSwapped =
      [.javaVisit (some (leaf "b" 1)), .javaVisit (some (leaf "a" 0)),
        .printJavaJaxbMain (some (leaf "a" 0)), .printPackageInfo (some (leaf "a" 0)),
        .printMavenPom] := by
  refine ⟨rfl, rfl, rfl, rfl⟩

/-- C6: when `print` fails on the first struct, `structSort` returns the
error, and `generateGoCode` drops it: it executes the code template on the
partially written buffer and returns nil. -/
theorem generateGoCode_drops_render_error :
    (generateGoCode sampleEmitter .alphabetical ["a.xml"] sampleExtractor false true "C"
      "").structs.exit = .returned (some "template: bad") ∧
    (generateGoCode sampleEmitter .alphabetical ["a.xml"] sampleExtractor false true "C"
      "").executed =
      some ⟨⟨"Cdoc", "doc", "doc", ""⟩, [], ["a.xml"], "a.xml", "type "⟩ ∧
    (generateGoCode sampleEmitter .alphabetical ["a.xml"] sampleExtractor false true "C"
      "").exit = .returned none := by
  refine ⟨rfl, rfl, rfl⟩

/-! ## The first-level child type list -/

theorem oneLevelDownInner_eq (h : Helpers) (g : GoMap String (List FQN))
    (flattenStrings keep : Bool) (namePrefix nameSuffix : String)
    (m : GoMap String (Option Node)) (acc : List XMLType) :
    oneLevelDownInner h g flattenStrings keep namePrefix nameSuffix m acc =
      acc ++ ((m.filterMap Prod.snd).filter (fun n =>
        !(flattenStrings && h.isStringOnlyField n (sliceGet g (h.nk n)).length))).map
          (xmlTypeOf h keep namePrefix nameSuffix) := by
  induction m generalizing acc with
  | nil => simp [oneLevelDownInner]
  | cons hd tl ih =>
    obtain ⟨k, _ | n⟩ := hd
    · simp [oneLevelDownInner, ih]
    · by_cases hc : (flattenStrings &&
          h.isStringOnlyField n (sliceGet g (h.nk n)).length) = true
      · simp only [oneLevelDownInner, hc, if_true, ih, List.filterMap_cons, List.filter_cons]
        simp
      · simp only [oneLevelDownInner, hc, ih, List.filterMap_cons, List.filter_cons]
        simp

theorem oneLevelDownOuter_eq (h : Helpers) (g : GoMap String (List FQN))
    (flattenStrings keep : Bool) (namePrefix nameSuffix : String)
    (m : GoMap String (Option Node)) (acc : List XMLType) :
    oneLevelDownOuter h g flattenStrings keep namePrefix nameSuffix m acc =
      acc ++ (((m.filterMap Prod.snd).flatMap
        (fun np => np.children.filterMap Prod.snd)).filter (fun n =>
          !(flattenStrings && h.isStringOnlyField n (sliceGet g (h.nk n)).length))).map
            (xmlTypeOf h keep namePrefix nameSuffix) := by
  induction m generalizing acc with
  | nil => simp [oneLevelDownOuter]
  | cons hd tl ih =>
    obtain ⟨k, _ | np⟩ := hd
    · simp [oneLevelDownOuter, ih]
    · simp [oneLevelDownOuter, ih, oneLevelDownInner_eq]

/-- C7: `makeOneLevelDown` returns, in the order the loops reach them, one
`XMLType` (built by `xmlTypeOf`) per non-nil grandchild `n` that is not dropped,
a grandchild being dropped exactly when `flattenStrings` is on and
`isStringOnlyField(n, len(globalTagAttributes[nk(n)]))` holds; with
`flattenStrings` off there is one entry per grandchild, and with it on the
entries are those of the grandchildren that are not string-only fields. -/
theorem makeOneLevelDown_flattening (h : Helpers) (node : Node)
    (g : GoMap String (List FQN)) (flattenStrings keep : Bool)
    (namePrefix nameSuffix : String) :
    makeOneLevelDown h node g flattenStrings keep namePrefix nameSuffix =
      ((grandchildren node).filter (fun n =>
        !(flattenStrings && h.isStringOnlyField n (sliceGet g (h.nk n)).length))).map
          (fun n => ⟨h.makeType n namePrefix nameSuffix keep, n.name,
            h.capitalizeFirstLetter n.name, n.space⟩) ∧
    makeOneLevelDown h node g false keep namePrefix nameSuffix =
      (grandchildren node).map
        (fun n => ⟨h.makeType n namePrefix nameSuffix keep, n.name,
          h.capitalizeFirstLetter n.name, n.space⟩) ∧
    makeOneLevelDown h node g true keep namePrefix nameSuffix =
      ((grandchildren node).filter (fun n =>
        !h.isStringOnlyField n (sliceGet g (h.nk n)).length)).map
          (fun n => ⟨h.makeType n namePrefix nameSuffix keep, n.name,
            h.capitalizeFirstLetter n.name, n.space⟩) := by
  have hx : xmlTypeOf h keep namePrefix nameSuffix =
      (fun n => ⟨h.makeType n namePrefix nameSuffix keep, n.name,
        h.capitalizeFirstLetter n.name, n.space⟩) := rfl
  refine ⟨?_, ?_, ?_⟩
  · simp only [makeOneLevelDown, oneLevelDownOuter_eq, grandchildren, List.nil_append, hx]
  · simp only [makeOneLevelDown, oneLevelDownOuter_eq, grandchildren, List.nil_append, hx,
      Bool.false_and, Bool.not_false, List.filter_true]
  · simp only [makeOneLevelDown, oneLevelDownOuter_eq, grandchildren, List.nil_append, hx,
      Bool.true_and]

/-! ## Length-tag flags -/

/-- C10: when the ignored-tag list parses without error, `handleParameters`
returns the error "Both lengthTagName and lengthTagAttribute must be set"
exactly when one of `lengthTagName`, `lengthTagAttribute` is empty and the
other is not, and returns nil when both are empty or both are non-empty. -/
theorem handleParameters_length_tags {τ : Type}
    (extractExcludedTags : String → Option τ × Option Err) (structSort : StructSort)
    (f : Flags) (tags : Option τ) (hx : extractExcludedTags f.ignoredXmlTags = (tags, none)) :
    ((handleParameters extractExcludedTags structSort f).err =
        some "Both lengthTagName and lengthTagAttribute must be set" ↔
      (f.lengthTagName = "" ∧ f.lengthTagAttribute ≠ "") ∨
        (f.lengthTagName ≠ "" ∧ f.lengthTagAttribute = "")) ∧
    ((f.lengthTagName = "" ∧ f.lengthTagAttribute = "") ∨
        (f.lengthTagName ≠ "" ∧ f.lengthTagAttribute ≠ "") →
      (handleParameters extractExcludedTags structSort f).err = none) := by
  by_cases hn : f.lengthTagName = "" <;> by_cases ha : f.lengthTagAttribute = "" <;>
    simp [handleParameters, hx, hn, ha]

/-- The length-tag theorem at `-N len`: only `lengthTagName` is set. -/
theorem handleParameters_length_tags_witness :
    sampleWorld.extractExcludedTags flagsLengthName.ignoredXmlTags = (some (), none) ∧
    (((handleParameters sampleWorld.extractExcludedTags StructSort.alphabetical
          flagsLengthName).err =
        some "Both lengthTagName and lengthTagAttribute must be set" ↔
      (flagsLengthName.lengthTagName = "" ∧ flagsLengthName.lengthTagAttribute ≠ "") ∨
        (flagsLengthName.lengthTagName ≠ "" ∧ flagsLengthName.lengthTagAttribute = "")) ∧
    ((flagsLengthName.lengthTagName = "" ∧ flagsLengthName.lengthTagAttribute = "") ∨
        (flagsLengthName.lengthTagName ≠ "" ∧ flagsLengthName.lengthTagAttribute ≠ "") →
      (handleParameters sampleWorld.extractExcludedTags StructSort.alphabetical
        flagsLengthName).err = none)) :=
  ⟨rfl, handleParameters_length_tags sampleWorld.extractExcludedTags StructSort.alphabetical
    flagsLengthName (some ()) rfl⟩

/-! ## The decoding-error policy of the source loop -/

theorem makeSourceReaders_all (newSource : Source → Option Err)
    (hnew : ∀ src, newSource src = none) (names : List String) (url standardIn : Bool) :
    makeSourceReaders newSource names url standardIn =
      ⟨names.map (fun name => ⟨sourceKind url standardIn, name⟩), none⟩ := by
  induction names with
  | nil => rfl
  | cons name rest ih =>
    have hk : (if url then SourceKind.UrlSource
        else if standardIn then SourceKind.StdinSource
        else SourceKind.FileSource) = sourceKind url standardIn := rfl
    simp only [makeSourceReaders, hk, hnew, ih, List.map_cons]

theorem extractSources_strict (extract : Extractor → Source → Extractor × Option Err)
    (pre : List Source) (src : Source) (post : List Source) (ex0 ex1 : Extractor) (err : Err)
    (hpre : succeedsOn extract pre ex0)
    (hfail : extract (extractAll extract pre ex0) src = (ex1, some err)) :
    extractSources extract false (pre ++ src :: post) ex0 =
      ⟨ex1, pre.map Event.extract ++
        [.extract src, .log ("ERROR: " ++ err), .fatal ("FATAL ERROR: " ++ err)], true⟩ := by
  induction pre generalizing ex0 with
  | nil =>
    simp only [extractAll] at hfail
    simp [extractSources, hfail]
  | cons p pre ih =>
    obtain ⟨h1, h2⟩ := hpre
    rcases hp : extract ex0 p with ⟨ex', oe⟩
    rw [hp] at h1 h2
    simp only at h1 h2
    subst h1
    simp only [extractAll, hp] at hfail
    simp [extractSources, hp, ih ex' h2 hfail]

theorem extractSources_permissive (extract : Extractor → Source → Extractor × Option Err)
    (sources : List Source) (ex0 : Extractor) :
    (extractSources extract true sources ex0).ex = extractAll extract sources ex0 ∧
    (extractSources extract true sources ex0).fatal = false ∧
    (extractSources extract true sources ex0).trace.filterMap Event.source? = sources ∧
    ∀ e ∈ (extractSources extract true sources ex0).trace,
      (∃ src, e = .extract src) ∨ (∃ msg, e = .log msg) := by
  induction sources generalizing ex0 with
  | nil => simp [extractSources, extractAll]
  | cons src rest ih =>
    obtain ⟨h1, h2, h3, h4⟩ := ih (extract ex0 src).1
    rcases hp : extract ex0 src with ⟨ex', _ | err⟩
    · rw [hp] at h1 h2 h3 h4
      simp only [extractSources, hp, extractAll, h1, h2, List.filterMap_cons, Event.source?, h3,
        List.mem_cons, true_and]
      rintro e (he | he)
      · exact Or.inl ⟨src, he⟩
      · exact h4 e he
    · rw [hp] at h1 h2 h3 h4
      simp only [extractSources, hp, extractAll, h1, h2, List.filterMap_cons, Event.source?, h3,
        List.mem_cons, true_and, Bool.not_true, Bool.false_eq_true, if_false]
      rintro e (he | he | he)
      · exact Or.inl ⟨src, he⟩
      · exact Or.inr ⟨_, he⟩
      · exact h4 e he

theorem consumeSources_permissive {τ : Type} (w : World τ) (f : Flags) (tags : Option τ)
    (names : List String) (sources : List Source) (hi : f.ignoreXmlDecodingErrors = true) :
    consumeSources w f tags names sources =
      (extractSources w.extract true sources (w.init f tags)).trace ++
        .done :: emission w.getFullPath f names
          (w.done (extractAll w.extract sources (w.init f tags))) := by
  obtain ⟨h1, h2, _, _⟩ := extractSources_permissive w.extract sources (w.init f tags)
  simp only [consumeSources, hi, h1, h2]
  simp

theorem runSources_all_made {τ : Type} (w : World τ) (f : Flags) (tags : Option τ)
    (names : List String) (hnew : ∀ src, w.newSource src = none) :
    runSources w f tags names = consumeSources w f tags names (sourcesOf f names) := by
  simp only [runSources, makeSourceReaders_all w.newSource hnew]
  rfl

theorem emission_goStructs (g : String → String × Option Err) (f : Flags)
    (names : List String) (first : String) (rest : List String) (ex : Extractor)
    (hn : names = first :: rest) (hc : f.codeGenConvert = false)
    (hs : f.structsToStdout = true) :
    emission g f names ex = [.generateGoStructs first ex] := by
  rw [hn]
  simp [emission, hc, hs]

theorem emission_java (g : String → String × Option Err) (f : Flags)
    (names : List String) (first : String) (rest : List String) (ex : Extractor)
    (root : Node) (hn : names = first :: rest) (hc : f.codeGenConvert = false)
    (hs : f.structsToStdout = false) (hj : f.writeJava = true) (hroot : ex.root = some root) :
    emission g f names ex =
      root.children.map (fun c => Event.javaVisit c.2) ++
        (match g first with
        | (_, some err) => [.fatal err]
        | (_, none) =>
          match javaOnlyChild root.children none with
          | none => [.printJavaJaxbMain none, .panic]
          | some onlyChild =>
            [.printJavaJaxbMain (some onlyChild), .printPackageInfo (some onlyChild),
              .printMavenPom]) := by
  rw [hn]
  simp [emission, hc, hs, hj, hroot]

theorem headD_cons_tail (pre : List String) (name : String) (post : List String) :
    ∃ rest, pre ++ name :: post = (pre ++ name :: post).headD name :: rest := by
  cases pre with
  | nil => exact ⟨post, rfl⟩
  | cons p pre => exact ⟨pre ++ name :: post, rfl⟩

/-- C5, amended: let `newSource` never fail, so that the goroutine sends the
sources made from `sourceNames` and closes the channel, and let `extract`
succeed on the sources of `pre` and return an error on the next one, `name`.
Strict (`ignoreXmlDecodingErrors` false): `main` extracts the sources up to
and including `name`, logs the error and ends with `log.Fatal`; no later
source is extracted and nothing is emitted.  Permissive
(`ignoreXmlDecodingErrors` true): `main` extracts every source, in order, with
nothing but error logging in between, each call of `extract` starting from the
state the previous call left; then it calls `done` and runs the branch of the
`switch` the flags select, on the extractor so obtained: `generateGoCode`,
else `generateGoStructs` on the first source name, else the Java output (the
visit of every root child, then `getFullPath`, `printJavaJaxbMain`,
`printPackageInfo` and `printMavenPom`, ending early where the code ends the
process), else nothing. -/
theorem runSources_decoding_error_policy {τ : Type} (w : World τ) (f : Flags)
    (tags : Option τ) (pre : List String) (name : String) (post : List String)
    (ex1 : Extractor) (err : Err)
    (hnew : ∀ src, w.newSource src = none)
    (hpre : succeedsOn w.extract (sourcesOf f pre) (w.init f tags))
    (hfail : w.extract (extractAll w.extract (sourcesOf f pre) (w.init f tags))
      ⟨sourceKind f.url f.readFromStandardIn, name⟩ = (ex1, some err)) :
    (f.ignoreXmlDecodingErrors = false →
      runSources w f tags (pre ++ name :: post) =
        (sourcesOf f pre).map Event.extract ++
          [.extract ⟨sourceKind f.url f.readFromStandardIn, name⟩,
            .log ("ERROR: " ++ err), .fatal ("FATAL ERROR: " ++ err)]) ∧
    (f.ignoreXmlDecodingErrors = true →
      ∃ t : List Event,
        t.filterMap Event.source? = sourcesOf f (pre ++ name :: post) ∧
        (∀ e ∈ t, (∃ src, e = .extract src) ∨ (∃ msg, e = .log msg)) ∧
        (f.codeGenConvert = true →
          runSources w f tags (pre ++ name :: post) =
            t ++ [.done, .generateGoCode (pre ++ name :: post)
              (w.done (extractAll w.extract (sourcesOf f (pre ++ name :: post))
                (w.init f tags)))]) ∧
        (f.codeGenConvert = false → f.structsToStdout = true →
          runSources w f tags (pre ++ name :: post) =
            t ++ [.done, .generateGoStructs ((pre ++ name :: post).headD name)
              (w.done (extractAll w.extract (sourcesOf f (pre ++ name :: post))
                (w.init f tags)))]) ∧
        (f.codeGenConvert = false → f.structsToStdout = false → f.writeJava = true →
          ((w.done (extractAll w.extract (sourcesOf f (pre ++ name :: post))
              (w.init f tags))).root = none →
            runSources w f tags (pre ++ name :: post) = t ++ [.done, .panic]) ∧
          ∀ root, (w.done (extractAll w.extract (sourcesOf f (pre ++ name :: post))
              (w.init f tags))).root = some root →
            (∀ e, (w.getFullPath ((pre ++ name :: post).headD name)).2 = some e →
              runSources w f tags (pre ++ name :: post) =
                t ++ .done :: (root.children.map (fun c => Event.javaVisit c.2) ++
                  [.fatal e])) ∧
            ((w.getFullPath ((pre ++ name :: post).headD name)).2 = none →
              (∀ n, javaOnlyChild root.children none = some n →
                runSources w f tags (pre ++ name :: post) =
                  t ++ .done :: (root.children.map (fun c => Event.javaVisit c.2) ++
                    [.printJavaJaxbMain (some n), .printPackageInfo (some n),
                      .printMavenPom])) ∧
              (javaOnlyChild root.children none = none →
                runSources w f tags (pre ++ name :: post) =
                  t ++ .done :: (root.children.map (fun c => Event.javaVisit c.2) ++
                    [.printJavaJaxbMain none, .panic])))) ∧
        (f.codeGenConvert = false → f.structsToStdout = false → f.writeJava = false →
          runSources w f tags (pre ++ name :: post) =
            t ++ [.done])) := by
  rw [runSources_all_made w f tags _ hnew]
  constructor
  · intro hi
    have hs := extractSources_strict w.extract (sourcesOf f pre)
      ⟨sourceKind f.url f.readFromStandardIn, name⟩ (sourcesOf f post) (w.init f tags) ex1 err
      hpre hfail
    have hsplit : sourcesOf f (pre ++ name :: post) =
        sourcesOf f pre ++ ⟨sourceKind f.url f.readFromStandardIn, name⟩ :: sourcesOf f post := by
      simp [sourcesOf]
    simp only [consumeSources, hi, hsplit, hs]
    simp
  · intro hi
    obtain ⟨_, _, h3, h4⟩ := extractSources_permissive w.extract
      (sourcesOf f (pre ++ name :: post)) (w.init f tags)
    have hrun := consumeSources_permissive w f tags (pre ++ name :: post)
      (sourcesOf f (pre ++ name :: post)) hi
    obtain ⟨rest, hnames⟩ := headD_cons_tail pre name post
    refine ⟨(extractSources w.extract true (sourcesOf f (pre ++ name :: post))
      (w.init f tags)).trace, h3, h4, ?_, ?_, ?_, ?_⟩
    · intro hc
      rw [hrun]
      simp [emission, hc]
    · intro hc hs
      rw [hrun, emission_goStructs _ f _ _ rest _ hnames hc hs]
    · intro hc hs hj
      refine ⟨?_, ?_⟩
      · intro hroot
        rw [hrun]
        simp [emission, hc, hs, hj, hroot]
      · intro root hroot
        have hem := emission_java w.getFullPath f _ _ rest _ root hnames hc hs hj hroot
        refine ⟨?_, ?_⟩
        · intro e he
          rcases hg : w.getFullPath ((pre ++ name :: post).headD name) with ⟨fp, oe⟩
          rw [hg] at he hem
          simp only at he
          subst he
          rw [hrun, hem]
        · intro he
          rcases hg : w.getFullPath ((pre ++ name :: post).headD name) with ⟨fp, oe⟩
          rw [hg] at he hem
          simp only at he
          subst he
          refine ⟨?_, ?_⟩
          · intro n hn
            rw [hn] at hem
            rw [hrun, hem]
          · intro hn
            rw [hn] at hem
            rw [hrun, hem]
    · intro hc hs hj
      rw [hrun]
      simp [emission, hc, hs, hj]

/-- The decoding-error policy at three runs over `ok.xml`, `bad.xml`,
`late.xml` in which every source is made: the strict run with `-W` stops at
`bad.xml`; the permissive run extracts all three and calls `generateGoStructs`;
the permissive Java run extracts all three, visits the three roots and writes
the Java output for the last one. -/
theorem runSources_decoding_error_policy_witness :
    ((∀ src, sampleWorld.newSource src = none) ∧
      succeedsOn sampleWorld.extract (sourcesOf flagsStrict ["ok.xml"])
        (sampleWorld.init flagsStrict (some ())) ∧
      runSources sampleWorld flagsStrict (some ()) ["ok.xml", "bad.xml", "late.xml"] =
        [.extract ⟨.FileSource, "ok.xml"⟩, .extract ⟨.FileSource, "bad.xml"⟩,
          .log "ERROR: XML syntax error", .fatal "FATAL ERROR: XML syntax error"]) ∧
    (∃ t : List Event,
      t.filterMap Event.source? =
        [⟨.FileSource, "ok.xml"⟩, ⟨.FileSource, "bad.xml"⟩, ⟨.FileSource, "late.xml"⟩] ∧
      runSources sampleWorld flagsPermissive (some ()) ["ok.xml", "bad.xml", "late.xml"] =
        t ++ [.done, .generateGoStructs "ok.xml"
          (extractAll sampleExtract
            (sourcesOf flagsPermissive ["ok.xml", "bad.xml", "late.xml"])
            (sampleWorld.init flagsPermissive (some ())))]) ∧
    (∃ t : List Event,
      t.filterMap Event.source? =
        [⟨.FileSource, "ok.xml"⟩, ⟨.FileSource, "bad.xml"⟩, ⟨.FileSource, "late.xml"⟩] ∧
      runSources sampleWorld flagsPermissiveJava (some ()) ["ok.xml", "bad.xml", "late.xml"] =
        t ++ [.done, .javaVisit (some (leaf "ok.xml" 0)), .javaVisit (some (leaf "bad.xml" 1)),
          .javaVisit (some (leaf "late.xml" 2)),
          .printJavaJaxbMain (some (leaf "late.xml" 2)),
          .printPackageInfo (some (leaf "late.xml" 2)), .printMavenPom]) :=
  ⟨⟨fun _ => rfl, ⟨rfl, trivial⟩,
      (runSources_decoding_error_policy sampleWorld flagsStrict (some ()) ["ok.xml"] "bad.xml"
        ["late.xml"]
        (sampleExtract
          (extractAll sampleExtract (sourcesOf flagsStrict ["ok.xml"])
            (sampleWorld.init flagsStrict (some ())))
          ⟨.FileSource, "bad.xml"⟩).1
        "XML syntax error" (fun _ => rfl) ⟨rfl, trivial⟩ rfl).1 rfl⟩,
    (match (runSources_decoding_error_policy sampleWorld flagsPermissive (some ()) ["ok.xml"]
        "bad.xml" ["late.xml"]
        (sampleExtract
          (extractAll sampleExtract (sourcesOf flagsPermissive ["ok.xml"])
            (sampleWorld.init flagsPermissive (some ())))
          ⟨.FileSource, "bad.xml"⟩).1
        "XML syntax error" (fun _ => rfl) ⟨rfl, trivial⟩ rfl).2 rfl with
      | ⟨t, h1, _, _, h4, _⟩ => ⟨t, h1, h4 rfl rfl⟩),
    (match (runSources_decoding_error_policy sampleWorld flagsPermissiveJava (some ())
        ["ok.xml"] "bad.xml" ["late.xml"]
        (sampleExtract
          (extractAll sampleExtract (sourcesOf flagsPermissiveJava ["ok.xml"])
            (sampleWorld.init flagsPermissiveJava (some ())))
          ⟨.FileSource, "bad.xml"⟩).1
        "XML syntax error" (fun _ => rfl) ⟨rfl, trivial⟩ rfl).2 rfl with
      | ⟨t, h1, _, _, _, h5, _⟩ =>
        ⟨t, h1, (((h5 rfl rfl rfl).2
          (.mk "" "" 0 [("ok.xml", some (leaf "ok.xml" 0)), ("bad.xml", some (leaf "bad.xml" 1)),
            ("late.xml", some (leaf "late.xml" 2))]) rfl).2 rfl).1 (leaf "late.xml" 2) rfl⟩)⟩

/-- C5, as stated, fails when a source cannot be made: with `-I` over
`bad.xml`, `ok.xml` and an unopenable `late.xml`, `extract` returns an error on
`bad.xml`, and whether `main` has by then extracted both sources sent or only
the first, the goroutine's `log.Fatal` ends the process: `ex.done()` and the
emission branch never run.  Without `-I`, over `ok.xml`, `bad.xml` and the
unopenable `late.xml`, the run can end before `bad.xml` is extracted. -/
theorem main_unopenable_source_ends_run :
    flagsBadFirst.ignoreXmlDecodingErrors = true ∧
    (sampleExtract (sampleWorld.init flagsBadFirst (some ()))
      ⟨.FileSource, "bad.xml"⟩).2 = some "XML syntax error" ∧
    main (unopenableWorld 2) flagsBadFirst =
      [.extract ⟨.FileSource, "bad.xml"⟩, .log "ERROR: XML syntax error",
        .extract ⟨.FileSource, "ok.xml"⟩, .fatal "open late.xml"] ∧
    main (unopenableWorld 1) flagsBadFirst =
      [.extract ⟨.FileSource, "bad.xml"⟩, .log "ERROR: XML syntax error",
        .fatal "open late.xml"] ∧
    (¬ ∃ (t rest : List Event),
      main (unopenableWorld 2) flagsBadFirst = t ++ .done :: rest) ∧
    main (unopenableWorld 1) flagsStrict =
      [.extract ⟨.FileSource, "ok.xml"⟩, .fatal "open late.xml"] := by
  refine ⟨rfl, rfl, rfl, rfl, ?_, rfl⟩
  rintro ⟨t, rest, h⟩
  have hmem : Event.done ∈ main (unopenableWorld 2) flagsBadFirst := by
    rw [h]
    simp
  have htrace : main (unopenableWorld 2) flagsBadFirst =
      [.extract ⟨.FileSource, "bad.xml"⟩, .log "ERROR: XML syntax error",
        .extract ⟨.FileSource, "ok.xml"⟩, .fatal "open late.xml"] := rfl
  rw [htrace] at hmem
  simp at hmem

end Chidley
